import Mathlib

/-!
Verification development for the sales-chart export script
(`John_Cowgill_Chubb_Work_Sample_Finance_Systems_Automation.py`).

The script streams a query result set to a local staging CSV file, copies it
to a temporary name in the destination directory and atomically renames it
onto the final path (`os.replace`), then best-effort deletes the staging file.
Three near-identical jobs are run in sequence, each opening its own database
connection and accumulating named timing spans in a per-job dictionary.

The embedding below models:
* rows as lists of already-stringified cell values (the `csv` module calls
  `str` on each value before encoding);
* the CSV encoder of `csv.writer` in the default excel dialect with
  `lineterminator="\n"` (comma delimiter, minimal quoting, quote doubling);
* the filesystem as a map from path strings to optional file contents, and
  each run as the list of filesystem operations it performs, so that every
  intermediate state ("instant") of a run is a member of the scan of that
  operation list;
* exceptions as `Except` values: measured wall-clock durations are parameters
  (rationals), and fallible external steps (mid-stream fetch, copy, rename,
  unlink, connect) carry injectable fault flags.
-/

namespace WorkSample

/-- Rows as yielded by the cursor, each cell already rendered to text. -/
abbrev Row := List String

/-- A filesystem snapshot: which file content, if any, each path holds. -/
abbrev FS := String → Option String

/-- The label-keyed span accumulation dictionary (`spans` in the source),
as an association list preserving insertion order like a Python dict. -/
abbrev SpanMap := List (String × ℚ)

/-! ## CSV encoding (the `csv.writer` used at source lines 165-172) -/

/-- Whether `csv.writer` with QUOTE_MINIMAL must quote a field: it contains
the delimiter, the quote character, or a carriage return or line feed. -/
def needsQuote (s : String) : Bool :=
  s.data.any fun c => c = ',' ∨ c = '"' ∨ c = '\n' ∨ c = '\r'

/-- Quote doubling applied inside a quoted CSV field. -/
def escapeQuotes (s : String) : String :=
  String.mk (s.data.foldr (fun c acc => if c = '"' then '"' :: '"' :: acc else c :: acc) [])

/-- One encoded CSV field under minimal quoting. -/
def csvField (s : String) : String :=
  if needsQuote s then "\"" ++ escapeQuotes s ++ "\"" else s

/-- Comma-join of encoded fields. -/
def commaJoin : List String → String
  | [] => ""
  | [s] => s
  | s :: rest => s ++ "," ++ commaJoin rest

/-- One CSV record as written by `w.writerow` with `lineterminator="\n"`. -/
def writeRow (r : Row) : String :=
  commaJoin (r.map csvField) ++ "\n"

/-- Concatenation of a list of strings, by plain recursion. -/
def strConcat : List String → String
  | [] => ""
  | s :: rest => s ++ strConcat rest

/-- The text `w.writerows rs` appends: each row encoded as one record. -/
def concatRecords (rs : List Row) : String :=
  strConcat (rs.map writeRow)

/-- The records of the finished file: the header record first, then one
record per result row. -/
def fileRecords (cols : List String) (rows : List Row) : List String :=
  writeRow cols :: rows.map writeRow

/-- Full content of the finished CSV file: header record then data records. -/
def csvText (cols : List String) (rows : List Row) : String :=
  writeRow cols ++ concatRecords rows

/-! ## Batched fetching (`cur.fetchmany()` with `cur.arraysize`) -/

/-- Fuel-indexed chunking worker; the fuel is an upper bound on the number
of nonempty chunks, making the recursion structural. -/
def chunksGo : Nat → Nat → List α → List (List α)
  | 0, _, _ => []
  | _ + 1, _, [] => []
  | fuel + 1, k, x :: xs => (x :: xs).take k :: chunksGo fuel k ((x :: xs).drop k)

/-- The successive results of `cur.fetchmany()` on a result set `xs` with
`cur.arraysize = k`: chunks of `k` rows, the last one possibly shorter. -/
def chunks (k : Nat) (xs : List α) : List (List α) :=
  chunksGo xs.length k xs

/-! ## Filesystem operations and semantics -/

/-- The filesystem operations a run performs, in order.  `mkdir` records
`final_unc.parent.mkdir(parents=True, exist_ok=True)` and has no effect on
the file map (directories are not modeled).  `copyFile` records a successful
`shutil.copyfile`; a failing copy records no operation (its possible partial
write goes to the temporary path, which no claim observes).  `replace` is
`os.replace`: the source path disappears and the destination atomically
receives the source content in one operation. -/
inductive FsOp
  | mkdir (forFinalPath : String)
  | writeFile (path : String) (content : String)
  | appendFile (path : String) (content : String)
  | copyFile (src : String) (dst : String)
  | replace (src : String) (dst : String)
  | unlink (path : String)
deriving DecidableEq

/-- Effect of one operation on a filesystem snapshot. -/
def applyOp (fs : FS) : FsOp → FS
  | .mkdir _ => fs
  | .writeFile p c => fun q => if q = p then some c else fs q
  | .appendFile p c => fun q => if q = p then some ((fs p).getD "" ++ c) else fs q
  | .copyFile src dst => fun q => if q = dst then fs src else fs q
  | .replace src dst => fun q => if q = dst then fs src else if q = src then none else fs q
  | .unlink p => fun q => if q = p then none else fs q

/-- Effect of a whole operation list. -/
def applyOps : FS → List FsOp → FS
  | fs, [] => fs
  | fs, op :: ops => applyOps (applyOp fs op) ops

/-- Every filesystem snapshot a run passes through: the initial state and the
state after each successive operation. -/
def statesOf : FS → List FsOp → List FS
  | fs, [] => [fs]
  | fs, op :: ops => fs :: statesOf (applyOp fs op) ops

/-- The file paths an operation can modify. -/
def opTargets : FsOp → List String
  | .mkdir _ => []
  | .writeFile p _ => [p]
  | .appendFile p _ => [p]
  | .copyFile _ dst => [dst]
  | .replace src dst => [src, dst]
  | .unlink p => [p]

/-! ## Errors, faults and measured durations -/

/-- The exception kinds the pipeline can raise.  `attributeError` is the
`AttributeError` from `bucket.get` when `timed` is given `None` as bucket. -/
inductive PErr
  | streamError
  | publishCopy
  | publishRename
  | connectionError
  | attributeError
deriving DecidableEq

instance exceptDecEq {ε α : Type} [DecidableEq ε] [DecidableEq α] :
    DecidableEq (Except ε α) := fun a b =>
  match a, b with
  | Except.error e, Except.error f =>
    if h : e = f then Decidable.isTrue (congrArg Except.error h)
    else Decidable.isFalse (fun hc => h (Except.error.inj hc))
  | Except.error _, Except.ok _ => Decidable.isFalse (fun hc => Except.noConfusion hc)
  | Except.ok _, Except.error _ => Decidable.isFalse (fun hc => Except.noConfusion hc)
  | Except.ok a, Except.ok b =>
    if h : a = b then Decidable.isTrue (congrArg Except.ok h)
    else Decidable.isFalse (fun hc => h (Except.ok.inj hc))

/-- Injectable faults for the fallible external steps.  `streamFailAfter k`
makes the fetch call number `k` (0-based) raise after `k` successful batch
fetches. -/
structure Faults where
  streamFailAfter : Option Nat
  copyFails : Bool
  renameFails : Bool
  unlinkFails : Bool
  connectFails : Bool
deriving DecidableEq

/-- A fault-free run. -/
def noFaults : Faults := ⟨none, false, false, false, false⟩

/-- Measured wall-clock durations of the timed regions of one job, as exact
rationals standing for the `perf_counter` differences. -/
structure Dts where
  imports : ℚ
  prep : ℚ
  connect : ℚ
  stream : ℚ
  copy : ℚ
  rename : ℚ
  cleanup : ℚ
  total : ℚ

/-! ## Span dictionary operations (source lines 28-36) -/

/-- Lookup with default `0.0`, modeling `bucket.get(label, 0.0)`. -/
def lookupD : SpanMap → String → ℚ
  | [], _ => 0
  | (k, v) :: rest, label => if k = label then v else lookupD rest label

/-- Python dict assignment `bucket[label] = bucket.get(label, 0.0) + dt`:
updates an existing key in place, else appends it. -/
def addSpan : SpanMap → String → ℚ → SpanMap
  | [], label, dt => [(label, dt)]
  | (k, v) :: rest, label, dt =>
    if k = label then (k, v + dt) :: rest else (k, v) :: addSpan rest label dt

/-- Sum of all accumulated span values, modeling `sum(spans.values())`. -/
def sumVals : SpanMap → ℚ
  | [] => 0
  | (_, v) :: rest => v + sumVals rest

/-- The `timed(label, bucket)` context manager at source lines 28-36: the
`finally` block runs on every exit path, normal or failing, and performs
`bucket[label] = bucket.get(label, 0.0) + dt`.  When `bucket` is `None`
this line raises `AttributeError`, which supersedes any in-flight exception
of the body.  The measured duration `dt` is a parameter of the model. -/
def timed (label : String) (dt : ℚ) (bucket : Option SpanMap)
    (body : Except PErr α) : Except PErr α × Option SpanMap :=
  match bucket with
  | none => (Except.error PErr.attributeError, none)
  | some b => (body, some (addSpan b label dt))

/-! ## Temporary-path derivation (source line 184) -/

/-- Worker on the reversed character list of a path: remove the characters of
the last extension including its dot, provided a dot occurs before any path
separator; `none` when the final component has no extension. -/
def dropExtRev : List Char → Option (List Char)
  | [] => none
  | c :: rest =>
    if c = '.' then some rest
    else if c = '\\' ∨ c = '/' then none
    else dropExtRev rest

/-- Path.with_suffix(".tmp.csv") at source line 184: the last extension of
the final path component is replaced by `.tmp.csv`; a component with no
extension gets it appended.  Dot-leading hidden-file names are not
special-cased. -/
def tmpPathFor (p : String) : String :=
  match dropExtRev p.data.reverse with
  | some stemRev => String.mk stemRev.reverse ++ ".tmp.csv"
  | none => p ++ ".tmp.csv"

/-! ## stream_query_to_local_csv (source lines 146-176) -/

/-- The `while True: rows = cur.fetchmany(); ...` loop at source lines
168-173.  Arguments: remaining batches, 0-based index of the next fetch
call, row count so far.  A fetch that raises produces no further writes;
a successful nonempty fetch appends one encoded batch and adds its length
to the count; an empty fetch ends the loop with the accumulated count. -/
def fetchLoop (path : String) (failAfter : Option Nat) :
    List (List Row) → Nat → Nat → Except PErr Nat × List FsOp
  | batches, i, count =>
    if failAfter = some i then
      (Except.error PErr.streamError, [])
    else
      match batches with
      | [] => (Except.ok count, [])
      | b :: rest =>
        let r := fetchLoop path failAfter rest (i + 1) (count + b.length)
        (r.1, FsOp.appendFile path (concatRecords b) :: r.2)

/-- stream_query_to_local_csv (source lines 146-176): opens the staging path
for writing (creating or truncating it), writes the header record when
`include_header`, then drains the cursor in `arraysize`-sized batches.
Returns the row count written (excluding the header) and the ordered file
operations performed.  The query result set is `rows`; `failAfter` injects a
mid-stream fetch fault. -/
def stream_query_to_local_csv (cols : List String) (rows : List Row)
    (local_csv_path : String) (arraysize : Nat) (include_header : Bool)
    (failAfter : Option Nat) : Except PErr Nat × List FsOp :=
  let batches := chunks arraysize rows
  let headerOps :=
    if include_header then [FsOp.appendFile local_csv_path (writeRow cols)] else []
  let r := fetchLoop local_csv_path failAfter batches 0 0
  (r.1, FsOp.writeFile local_csv_path "" :: headerOps ++ r.2)

/-! ## save_csv_via_staging_streaming (source lines 179-215) -/

/-- Result of one `save_csv_via_staging_streaming` run: the returned row
count or the propagated exception, the final state of the span dictionary
argument, and the ordered filesystem operations performed. -/
structure SaveOut where
  result : Except PErr Nat
  spans : Option SpanMap
  trace : List FsOp

/-- save_csv_via_staging_streaming (source lines 179-215).  The destination
parent directory is ensured first; the temporary destination path is derived
with `with_suffix(".tmp.csv")`; `local_tmp` is the uuid-named staging path
chosen for this run (source line 185).  Each phase is wrapped in `timed`
with the job span dictionary (`spans`, default `None` in the source);
streaming, copy and rename faults propagate as exceptions, after which no
further step runs.  Only after a successful rename is the staging file
unlinked, inside `try/except: pass`. -/
def save_csv_via_staging_streaming (cols : List String) (rows : List Row)
    (final_unc_path : String) (local_tmp : String) (arraysize : Nat)
    (spans : Option SpanMap) (dts : Dts) (faults : Faults) : SaveOut :=
  let unc_tmp := tmpPathFor final_unc_path
  let mkdirOps := [FsOp.mkdir final_unc_path]
  let s := stream_query_to_local_csv cols rows local_tmp arraysize true
    faults.streamFailAfter
  let t1 := timed "READ_STREAM_TO_LOCAL_CSV" dts.stream spans s.1
  match t1.1 with
  | Except.error e => ⟨Except.error e, t1.2, mkdirOps ++ s.2⟩
  | Except.ok rows_written =>
    let copyRes : Except PErr Unit :=
      if faults.copyFails then Except.error PErr.publishCopy else Except.ok ()
    let copyOps :=
      if faults.copyFails then [] else [FsOp.copyFile local_tmp unc_tmp]
    let t2 := timed "COPY_TO_UNC" dts.copy t1.2 copyRes
    match t2.1 with
    | Except.error e => ⟨Except.error e, t2.2, mkdirOps ++ s.2 ++ copyOps⟩
    | Except.ok _ =>
      let renameRes : Except PErr Unit :=
        if faults.renameFails then Except.error PErr.publishRename else Except.ok ()
      let renameOps :=
        if faults.renameFails then [] else [FsOp.replace unc_tmp final_unc_path]
      let t3 := timed "RENAME_ON_UNC" dts.rename t2.2 renameRes
      match t3.1 with
      | Except.error e => ⟨Except.error e, t3.2, mkdirOps ++ s.2 ++ copyOps ++ renameOps⟩
      | Except.ok _ =>
        let unlinkOps :=
          if faults.unlinkFails then [] else [FsOp.unlink local_tmp]
        ⟨Except.ok rows_written, t3.2, mkdirOps ++ s.2 ++ copyOps ++ renameOps ++ unlinkOps⟩

/-! ## run_sales_export (source lines 218-268) -/

/-- Observable outcome of one `run_sales_export` job: the result or
propagated exception, whether `cxn.close()` was reached, the final span
dictionary, the `(total, unaccounted)` pair printed in the CLEANUP block
(`none` when that block is never reached), and the filesystem operations
performed. -/
structure RunOut where
  result : Except PErr Nat
  closeCalled : Bool
  spans : SpanMap
  reported : Option (ℚ × ℚ)
  trace : List FsOp

/-- run_sales_export (source lines 218-268).  The span dictionary starts
with the IMPORTS entry, the PREP block cannot fail, the CONNECT block adds
its span even when `pyodbc.connect` raises (the `finally` of `timed` runs
first), and the pipeline call is not guarded: any exception from
`save_csv_via_staging_streaming` propagates immediately, skipping the
CLEANUP block, so `cxn.close()` runs only on the success path.  Inside
CLEANUP, `accounted` is `sum(spans.values())` of the dictionary as it stands
at that report instant, before the CLEANUP span itself is recorded on block
exit. -/
def run_sales_export (cols : List String) (rows : List Row)
    (final_unc_path : String) (local_tmp : String) (arraysize : Nat)
    (dts : Dts) (faults : Faults) : RunOut :=
  let spans0 : SpanMap := [("IMPORTS", dts.imports)]
  let spans1 := addSpan spans0 "PREP" dts.prep
  if faults.connectFails then
    ⟨Except.error PErr.connectionError, false,
      addSpan spans1 "CONNECT" dts.connect, none, []⟩
  else
    let spans2 := addSpan spans1 "CONNECT" dts.connect
    let sv := save_csv_via_staging_streaming cols rows final_unc_path local_tmp
      arraysize (some spans2) dts faults
    match sv.result with
    | Except.error e => ⟨Except.error e, false, sv.spans.getD spans2, none, sv.trace⟩
    | Except.ok rows_total =>
      let spansR := sv.spans.getD spans2
      let accounted := sumVals spansR
      let spansF := addSpan spansR "CLEANUP" dts.cleanup
      ⟨Except.ok rows_total, true, spansF,
        some (dts.total, dts.total - accounted), sv.trace⟩

/-! ## Script job constants (source lines 271-395) -/

/-- Destination path of Job 1 (source line 298). -/
def job1_final_unc_path : String :=
  "\\\\<file_share>\\Accounting\\<redacted_path>\\SW_Sales_Chart_Data.csv"

/-- Destination path of Job 2 (source line 336). -/
def job2_final_unc_path : String :=
  "\\\\<file_share>\\Accounting\\<redacted_path>\\SW_Sales_Chart_Data.csv"

/-- Destination path of Job 3 (source line 391). -/
def job3_final_unc_path : String :=
  "\\\\<file_share>\\Accounting\\<redacted_path>\\SW_Sales_Chart_Data.csv"

/-- Database of Job 1 (source line 293). -/
def job1_database : String := "PDICompany_2875_10"

/-- Database of Job 2 (source line 331). -/
def job2_database : String := "PDICompany_2875_70"

/-- Database of Job 3 (source line 386). -/
def job3_database : String := "PDICompany_2875_10"

/-! ## String and concatenation lemmas -/

theorem strAppend_assoc (a b c : String) : a ++ b ++ c = a ++ (b ++ c) := by
  cases a with | mk da =>
  cases b with | mk db =>
  cases c with | mk dc =>
  show String.mk (da ++ db ++ dc) = String.mk (da ++ (db ++ dc))
  rw [List.append_assoc]

theorem strConcat_append (a b : List String) :
    strConcat (a ++ b) = strConcat a ++ strConcat b := by
  induction a with
  | nil => exact (String.empty_append _).symm
  | cons s rest ih =>
    show s ++ strConcat (rest ++ b) = s ++ strConcat rest ++ strConcat b
    rw [ih, strAppend_assoc]

theorem concatRecords_append (a b : List Row) :
    concatRecords (a ++ b) = concatRecords a ++ concatRecords b := by
  simp [concatRecords, strConcat_append]

/-! ## Chunking lemmas -/

theorem chunksGo_concat (fuel k : Nat) (hk : 1 ≤ k) :
    ∀ xs : List Row, xs.length ≤ fuel →
      strConcat ((chunksGo fuel k xs).map concatRecords) = concatRecords xs := by
  induction fuel with
  | zero =>
    intro xs hxs
    have : xs = [] := List.length_eq_zero.mp (Nat.le_zero.mp hxs)
    subst this
    simp [chunksGo, strConcat, concatRecords]
  | succ fuel ih =>
    intro xs hxs
    match xs with
    | [] => simp [chunksGo, strConcat, concatRecords]
    | x :: rest =>
      have hdrop : ((x :: rest).drop k).length ≤ fuel := by
        have h1 : ((x :: rest).drop k).length = (x :: rest).length - k := by
          simp [List.length_drop]
        have h2 : (x :: rest).length - k ≤ (x :: rest).length - 1 :=
          Nat.sub_le_sub_left hk _
        have h3 : (x :: rest).length - 1 = rest.length := by simp
        omega
      calc strConcat ((chunksGo (fuel + 1) k (x :: rest)).map concatRecords)
          = concatRecords ((x :: rest).take k)
              ++ strConcat ((chunksGo fuel k ((x :: rest).drop k)).map concatRecords) := by
            simp [chunksGo, strConcat]
        _ = concatRecords ((x :: rest).take k) ++ concatRecords ((x :: rest).drop k) := by
            rw [ih _ hdrop]
        _ = concatRecords (x :: rest) := by
            rw [← concatRecords_append, List.take_append_drop]

theorem chunksGo_sumLen (fuel k : Nat) (hk : 1 ≤ k) :
    ∀ xs : List Row, xs.length ≤ fuel →
      ((chunksGo fuel k xs).map List.length).sum = xs.length := by
  induction fuel with
  | zero =>
    intro xs hxs
    have : xs = [] := List.length_eq_zero.mp (Nat.le_zero.mp hxs)
    subst this
    simp [chunksGo]
  | succ fuel ih =>
    intro xs hxs
    match xs with
    | [] => simp [chunksGo]
    | x :: rest =>
      have hdrop : ((x :: rest).drop k).length ≤ fuel := by
        have h1 : ((x :: rest).drop k).length = (x :: rest).length - k := by
          simp [List.length_drop]
        omega
      have := ih ((x :: rest).drop k) hdrop
      have hsplit : ((x :: rest).take k).length + ((x :: rest).drop k).length
          = (x :: rest).length := by
        conv_rhs => rw [← List.take_append_drop k (x :: rest)]
        rw [List.length_append]
      simp only [chunksGo, List.map_cons, List.sum_cons]
      rw [this, hsplit]

theorem chunks_concat (k : Nat) (hk : 1 ≤ k) (xs : List Row) :
    strConcat ((chunks k xs).map concatRecords) = concatRecords xs :=
  chunksGo_concat xs.length k hk xs (Nat.le_refl _)

theorem chunks_sumLen (k : Nat) (hk : 1 ≤ k) (xs : List Row) :
    ((chunks k xs).map List.length).sum = xs.length :=
  chunksGo_sumLen xs.length k hk xs (Nat.le_refl _)

/-! ## Filesystem semantics lemmas -/

theorem applyOps_append (fs : FS) (l1 l2 : List FsOp) :
    applyOps fs (l1 ++ l2) = applyOps (applyOps fs l1) l2 := by
  induction l1 generalizing fs with
  | nil => simp [applyOps]
  | cons op rest ih => simp [applyOps, ih]

theorem applyOp_untouched {p : String} {op : FsOp} (h : p ∉ opTargets op) (fs : FS) :
    applyOp fs op p = fs p := by
  cases op with
  | mkdir d => rfl
  | writeFile q c =>
    simp only [opTargets, List.mem_singleton] at h
    simp [applyOp, h]
  | appendFile q c =>
    simp only [opTargets, List.mem_singleton] at h
    simp [applyOp, h]
  | copyFile src dst =>
    simp only [opTargets, List.mem_singleton] at h
    simp [applyOp, h]
  | replace src dst =>
    simp only [opTargets, List.mem_cons, List.mem_singleton, not_or] at h
    simp [applyOp, h.1, h.2]
  | unlink q =>
    simp only [opTargets, List.mem_singleton] at h
    simp [applyOp, h]

theorem applyOps_untouched {p : String} {ops : List FsOp}
    (h : ∀ op ∈ ops, p ∉ opTargets op) (fs : FS) :
    applyOps fs ops p = fs p := by
  induction ops generalizing fs with
  | nil => simp [applyOps]
  | cons op rest ih =>
    have h1 : p ∉ opTargets op := h op (List.mem_cons_self _ _)
    have h2 : ∀ o ∈ rest, p ∉ opTargets o := fun o ho => h o (List.mem_cons_of_mem _ ho)
    simp [applyOps, ih h2, applyOp_untouched h1]

theorem mem_statesOf_append {fs0 : FS} {l1 l2 : List FsOp} {fs : FS}
    (h : fs ∈ statesOf fs0 (l1 ++ l2)) :
    fs ∈ statesOf fs0 l1 ∨ fs ∈ statesOf (applyOps fs0 l1) l2 := by
  induction l1 generalizing fs0 with
  | nil =>
    right
    simpa [applyOps] using h
  | cons op rest ih =>
    simp only [List.cons_append, statesOf, List.mem_cons] at h
    rcases h with h | h
    · left; simp [statesOf, h]
    · rcases ih h with h' | h'
      · left; simp [statesOf, h']
      · right; simpa [applyOps] using h'

theorem statesOf_untouched {p : String} {ops : List FsOp}
    (h : ∀ op ∈ ops, p ∉ opTargets op) (fs0 : FS) :
    ∀ fs ∈ statesOf fs0 ops, fs p = fs0 p := by
  induction ops generalizing fs0 with
  | nil =>
    intro fs hfs
    simp only [statesOf, List.mem_singleton] at hfs
    simp [hfs]
  | cons op rest ih =>
    intro fs hfs
    have h1 : p ∉ opTargets op := h op (List.mem_cons_self _ _)
    have h2 : ∀ o ∈ rest, p ∉ opTargets o := fun o ho => h o (List.mem_cons_of_mem _ ho)
    simp only [statesOf, List.mem_cons] at hfs
    rcases hfs with h' | h'
    · simp [h']
    · rw [ih h2 _ fs h', applyOp_untouched h1]

theorem applyOps_appendRun (p : String) (ss : List String) (fs : FS) (init : String)
    (h : fs p = some init) :
    applyOps fs (ss.map (fun c => FsOp.appendFile p c)) p
      = some (init ++ strConcat ss) := by
  induction ss generalizing fs init with
  | nil =>
    simp [applyOps, strConcat, String.append_empty, h]
  | cons s rest ih =>
    simp only [List.map_cons, applyOps]
    have hstep : applyOp fs (FsOp.appendFile p s) p = some (init ++ s) := by
      simp [applyOp, h]
    rw [ih _ _ hstep, strConcat, strAppend_assoc]

/-! ## fetchLoop and stream lemmas -/

theorem fetchLoop_none (p : String) (batches : List (List Row)) :
    ∀ (i count : Nat),
      fetchLoop p none batches i count
        = (Except.ok (count + (batches.map List.length).sum),
           batches.map (fun b => FsOp.appendFile p (concatRecords b))) := by
  induction batches with
  | nil =>
    intro i count
    rw [fetchLoop]
    simp
  | cons b rest ih =>
    intro i count
    rw [fetchLoop]
    simp only [List.map_cons, List.sum_cons]
    have : ((none : Option Nat) = some i) = False := by simp
    rw [if_neg (by simp)]
    simp only [ih (i + 1) (count + b.length)]
    rw [Nat.add_assoc]

theorem fetchLoop_ok (p : String) (fa : Option Nat) (batches : List (List Row)) :
    ∀ (i count n : Nat),
      (fetchLoop p fa batches i count).1 = Except.ok n →
      (fetchLoop p fa batches i count).2
          = batches.map (fun b => FsOp.appendFile p (concatRecords b))
        ∧ n = count + (batches.map List.length).sum := by
  induction batches with
  | nil =>
    intro i count n h
    rw [fetchLoop] at h ⊢
    by_cases hf : fa = some i
    · rw [if_pos hf] at h
      exact absurd h (by simp)
    · rw [if_neg hf] at h ⊢
      simp at h
      simp [h]
  | cons b rest ih =>
    intro i count n h
    rw [fetchLoop] at h ⊢
    by_cases hf : fa = some i
    · rw [if_pos hf] at h
      exact absurd h (by simp)
    · rw [if_neg hf] at h ⊢
      simp only at h ⊢
      obtain ⟨htr, hn⟩ := ih (i + 1) (count + b.length) n h
      simp only [List.map_cons, List.sum_cons, htr, hn]
      refine ⟨trivial, ?_⟩
      omega

theorem fetchLoop_ops_shape (p : String) (fa : Option Nat) (batches : List (List Row)) :
    ∀ (i count : Nat) (op : FsOp), op ∈ (fetchLoop p fa batches i count).2 →
      ∃ c, op = FsOp.appendFile p c := by
  induction batches with
  | nil =>
    intro i count op h
    rw [fetchLoop] at h
    by_cases hf : fa = some i
    · rw [if_pos hf] at h
      simp at h
    · rw [if_neg hf] at h
      simp at h
  | cons b rest ih =>
    intro i count op h
    rw [fetchLoop] at h
    by_cases hf : fa = some i
    · rw [if_pos hf] at h
      simp at h
    · rw [if_neg hf] at h
      simp only [List.mem_cons] at h
      rcases h with h | h
      · exact ⟨concatRecords b, h⟩
      · exact ih (i + 1) (count + b.length) op h

theorem stream_ops_shape {cols : List String} {rows : List Row} {p : String}
    {k : Nat} {fa : Option Nat} (op : FsOp)
    (h : op ∈ (stream_query_to_local_csv cols rows p k true fa).2) :
    (∃ c, op = FsOp.writeFile p c) ∨ (∃ c, op = FsOp.appendFile p c) := by
  have h2 : op = FsOp.writeFile p "" ∨ op = FsOp.appendFile p (writeRow cols)
      ∨ op ∈ (fetchLoop p fa (chunks k rows) 0 0).2 := by
    simpa [stream_query_to_local_csv] using h
  rcases h2 with h2 | h2 | h2
  · exact Or.inl ⟨"", h2⟩
  · exact Or.inr ⟨writeRow cols, h2⟩
  · exact Or.inr (fetchLoop_ops_shape p fa (chunks k rows) 0 0 op h2)

theorem stream_ops_targets {cols : List String} {rows : List Row} {p : String}
    {k : Nat} {fa : Option Nat} (op : FsOp)
    (h : op ∈ (stream_query_to_local_csv cols rows p k true fa).2) :
    opTargets op = [p] := by
  rcases stream_ops_shape op h with ⟨c, rfl⟩ | ⟨c, rfl⟩ <;> rfl

theorem stream_none_ok (cols : List String) (rows : List Row) (p : String) (k : Nat) :
    (stream_query_to_local_csv cols rows p k true none).1
      = Except.ok ((chunks k rows).map List.length).sum := by
  simp [stream_query_to_local_csv, fetchLoop_none]

theorem stream_content (cols : List String) (rows : List Row) (p : String) (k : Nat)
    (hk : 1 ≤ k) (fa : Option Nat) (n : Nat)
    (hok : (stream_query_to_local_csv cols rows p k true fa).1 = Except.ok n) (fs : FS) :
    applyOps fs (stream_query_to_local_csv cols rows p k true fa).2 p
        = some (csvText cols rows)
      ∧ n = rows.length := by
  have hok' : (fetchLoop p fa (chunks k rows) 0 0).1 = Except.ok n := by
    simpa [stream_query_to_local_csv] using hok
  obtain ⟨htr, hn⟩ := fetchLoop_ok p fa (chunks k rows) 0 0 n hok'
  constructor
  · have hform : (stream_query_to_local_csv cols rows p k true fa).2
        = FsOp.writeFile p ""
          :: (writeRow cols :: (chunks k rows).map concatRecords).map
              (fun c => FsOp.appendFile p c) := by
      simp [stream_query_to_local_csv, htr, List.map_map, Function.comp]
    rw [hform]
    have hw : applyOp fs (FsOp.writeFile p "") p = some "" := by simp [applyOp]
    show applyOps (applyOp fs (FsOp.writeFile p ""))
        ((writeRow cols :: (chunks k rows).map concatRecords).map
          (fun c => FsOp.appendFile p c)) p = some (csvText cols rows)
    rw [applyOps_appendRun _ _ _ _ hw, String.empty_append, strConcat,
      chunks_concat k hk rows, csvText]
  · rw [hn, chunks_sumLen k hk rows]
    simp

/-! ## Structural case analysis of save_csv_via_staging_streaming -/

theorem save_trace_cases (cols : List String) (rows : List Row)
    (final_unc_path local_tmp : String) (k : Nat) (spans : Option SpanMap)
    (dts : Dts) (faults : Faults) :
    ((∃ e, (save_csv_via_staging_streaming cols rows final_unc_path local_tmp k
          spans dts faults).result = Except.error e)
      ∧ ((save_csv_via_staging_streaming cols rows final_unc_path local_tmp k
            spans dts faults).trace
            = FsOp.mkdir final_unc_path
              :: (stream_query_to_local_csv cols rows local_tmp k true
                  faults.streamFailAfter).2
          ∨ (save_csv_via_staging_streaming cols rows final_unc_path local_tmp k
              spans dts faults).trace
              = FsOp.mkdir final_unc_path
                :: (stream_query_to_local_csv cols rows local_tmp k true
                    faults.streamFailAfter).2
                ++ [FsOp.copyFile local_tmp (tmpPathFor final_unc_path)]))
    ∨ (∃ n, (save_csv_via_staging_streaming cols rows final_unc_path local_tmp k
            spans dts faults).result = Except.ok n
        ∧ (stream_query_to_local_csv cols rows local_tmp k true
            faults.streamFailAfter).1 = Except.ok n
        ∧ (save_csv_via_staging_streaming cols rows final_unc_path local_tmp k
            spans dts faults).trace
            = FsOp.mkdir final_unc_path
              :: (stream_query_to_local_csv cols rows local_tmp k true
                  faults.streamFailAfter).2
              ++ ([FsOp.copyFile local_tmp (tmpPathFor final_unc_path),
                   FsOp.replace (tmpPathFor final_unc_path) final_unc_path]
                  ++ if faults.unlinkFails then [] else [FsOp.unlink local_tmp])) := by
  cases spans with
  | none =>
    left
    constructor
    · exact ⟨PErr.attributeError, by simp [save_csv_via_staging_streaming, timed]⟩
    · left
      simp [save_csv_via_staging_streaming, timed]
  | some b =>
    cases hs : (stream_query_to_local_csv cols rows local_tmp k true
        faults.streamFailAfter).1 with
    | error e =>
      left
      constructor
      · exact ⟨e, by simp [save_csv_via_staging_streaming, timed, hs]⟩
      · left
        simp [save_csv_via_staging_streaming, timed, hs]
    | ok n =>
      cases hc : faults.copyFails with
      | true =>
        left
        constructor
        · exact ⟨PErr.publishCopy,
            by simp [save_csv_via_staging_streaming, timed, hs, hc]⟩
        · left
          simp [save_csv_via_staging_streaming, timed, hs, hc]
      | false =>
        cases hr : faults.renameFails with
        | true =>
          left
          constructor
          · exact ⟨PErr.publishRename,
              by simp [save_csv_via_staging_streaming, timed, hs, hc, hr]⟩
          · right
            simp [save_csv_via_staging_streaming, timed, hs, hc, hr]
        | false =>
          right
          refine ⟨n, ?_, rfl, ?_⟩
          · simp [save_csv_via_staging_streaming, timed, hs, hc, hr]
          · simp [save_csv_via_staging_streaming, timed, hs, hc, hr]

theorem save_err_shape (cols : List String) (rows : List Row)
    (final_unc_path local_tmp : String) (k : Nat) (spans : Option SpanMap)
    (dts : Dts) (faults : Faults) (e : PErr)
    (herr : (save_csv_via_staging_streaming cols rows final_unc_path local_tmp k
        spans dts faults).result = Except.error e) :
    ∀ op ∈ (save_csv_via_staging_streaming cols rows final_unc_path local_tmp k
        spans dts faults).trace,
      op = FsOp.mkdir final_unc_path
      ∨ (∃ c, op = FsOp.writeFile local_tmp c)
      ∨ (∃ c, op = FsOp.appendFile local_tmp c)
      ∨ op = FsOp.copyFile local_tmp (tmpPathFor final_unc_path) := by
  rcases save_trace_cases cols rows final_unc_path local_tmp k spans dts faults with
    ⟨_, htr | htr⟩ | ⟨m, hres, _, _⟩
  · intro op hop
    rw [htr] at hop
    rcases List.mem_cons.mp hop with rfl | hop
    · exact Or.inl rfl
    · rcases stream_ops_shape op hop with ⟨c, rfl⟩ | ⟨c, rfl⟩
      · exact Or.inr (Or.inl ⟨c, rfl⟩)
      · exact Or.inr (Or.inr (Or.inl ⟨c, rfl⟩))
  · intro op hop
    rw [htr] at hop
    rcases List.mem_cons.mp hop with rfl | hop
    · exact Or.inl rfl
    · rcases List.mem_append.mp hop with hop | hop
      · rcases stream_ops_shape op hop with ⟨c, rfl⟩ | ⟨c, rfl⟩
        · exact Or.inr (Or.inl ⟨c, rfl⟩)
        · exact Or.inr (Or.inr (Or.inl ⟨c, rfl⟩))
      · rcases List.mem_singleton.mp hop with rfl
        exact Or.inr (Or.inr (Or.inr rfl))
  · rw [herr] at hres
    exact absurd hres (by simp)

theorem save_err_untargeted (cols : List String) (rows : List Row)
    (final_unc_path local_tmp : String) (k : Nat) (spans : Option SpanMap)
    (dts : Dts) (faults : Faults) (e : PErr)
    (h1 : final_unc_path ≠ local_tmp)
    (h2 : final_unc_path ≠ tmpPathFor final_unc_path)
    (herr : (save_csv_via_staging_streaming cols rows final_unc_path local_tmp k
        spans dts faults).result = Except.error e) :
    ∀ op ∈ (save_csv_via_staging_streaming cols rows final_unc_path local_tmp k
        spans dts faults).trace, final_unc_path ∉ opTargets op := by
  intro op hop
  rcases save_err_shape cols rows final_unc_path local_tmp k spans dts faults e herr
      op hop with rfl | ⟨c, rfl⟩ | ⟨c, rfl⟩ | rfl <;>
    simp [opTargets, h1, h2]

theorem applyOps_publish {c : String} (fs : FS) (local_tmp u f : String) (ul : List FsOp)
    (hul : ∀ op ∈ ul, f ∉ opTargets op)
    (hl : fs local_tmp = some c) :
    applyOps fs ([FsOp.copyFile local_tmp u, FsOp.replace u f] ++ ul) f = some c := by
  show applyOps (applyOp (applyOp fs (FsOp.copyFile local_tmp u)) (FsOp.replace u f)) ul f
      = some c
  rw [applyOps_untouched hul]
  simp [applyOp, hl]

theorem applyOps_publish_unlink (fs : FS) (local_tmp u f : String) :
    applyOps fs ([FsOp.copyFile local_tmp u, FsOp.replace u f]
      ++ [FsOp.unlink local_tmp]) local_tmp = none := by
  show applyOp (applyOp (applyOp fs (FsOp.copyFile local_tmp u)) (FsOp.replace u f))
      (FsOp.unlink local_tmp) local_tmp = none
  simp [applyOp]

theorem save_ok_state (cols : List String) (rows : List Row)
    (final_unc_path local_tmp : String) (k : Nat) (spans : Option SpanMap)
    (dts : Dts) (faults : Faults) (n : Nat) (fs0 : FS)
    (hk : 1 ≤ k)
    (h1 : final_unc_path ≠ local_tmp)
    (hok : (save_csv_via_staging_streaming cols rows final_unc_path local_tmp k
        spans dts faults).result = Except.ok n) :
    n = rows.length
    ∧ applyOps fs0 (save_csv_via_staging_streaming cols rows final_unc_path local_tmp k
        spans dts faults).trace final_unc_path = some (csvText cols rows)
    ∧ (faults.unlinkFails = false →
        applyOps fs0 (save_csv_via_staging_streaming cols rows final_unc_path local_tmp k
          spans dts faults).trace local_tmp = none
        ∧ FsOp.unlink local_tmp ∈ (save_csv_via_staging_streaming cols rows
            final_unc_path local_tmp k spans dts faults).trace) := by
  rcases save_trace_cases cols rows final_unc_path local_tmp k spans dts faults with
    ⟨⟨e, he⟩, _⟩ | ⟨m, hres, hsok, htr⟩
  · rw [hok] at he
    exact absurd he (by simp)
  · have hmn : m = n := by
      rw [hok] at hres
      exact (Except.ok.inj hres).symm
    subst hmn
    obtain ⟨hcontent, hlen⟩ :=
      stream_content cols rows local_tmp k hk faults.streamFailAfter m hsok fs0
    refine ⟨hlen, ?_, ?_⟩
    · rw [htr]
      show applyOps fs0 ((stream_query_to_local_csv cols rows local_tmp k true
            faults.streamFailAfter).2
          ++ ([FsOp.copyFile local_tmp (tmpPathFor final_unc_path),
               FsOp.replace (tmpPathFor final_unc_path) final_unc_path]
              ++ if faults.unlinkFails then [] else [FsOp.unlink local_tmp]))
          final_unc_path = some (csvText cols rows)
      rw [applyOps_append]
      apply applyOps_publish _ _ _ _ _ _ hcontent
      cases hu : faults.unlinkFails with
      | true =>
        intro op hop
        simp at hop
      | false =>
        intro op hop
        simp only [Bool.false_eq_true, if_false, List.mem_singleton] at hop
        subst hop
        simp [opTargets, h1]
    · intro hu
      rw [htr, hu]
      constructor
      · show applyOps fs0 ((stream_query_to_local_csv cols rows local_tmp k true
            faults.streamFailAfter).2
            ++ ([FsOp.copyFile local_tmp (tmpPathFor final_unc_path),
                 FsOp.replace (tmpPathFor final_unc_path) final_unc_path]
                ++ [FsOp.unlink local_tmp])) local_tmp = none
        rw [applyOps_append]
        exact applyOps_publish_unlink _ _ _ _
      · simp

/-- Helper computation: with no injected faults and a real (non-`None`) span
dictionary, the pipeline returns the streamed row count and records all three
publish spans. -/
theorem save_noFaults (cols : List String) (rows : List Row)
    (final_unc_path local_tmp : String) (k : Nat) (b : SpanMap) (dts : Dts) :
    (save_csv_via_staging_streaming cols rows final_unc_path local_tmp k
        (some b) dts noFaults).result
      = Except.ok ((chunks k rows).map List.length).sum
    ∧ (save_csv_via_staging_streaming cols rows final_unc_path local_tmp k
        (some b) dts noFaults).spans
      = some (addSpan (addSpan (addSpan b "READ_STREAM_TO_LOCAL_CSV" dts.stream)
          "COPY_TO_UNC" dts.copy) "RENAME_ON_UNC" dts.rename) := by
  have hs := stream_none_ok cols rows local_tmp k
  constructor <;> simp [save_csv_via_staging_streaming, timed, noFaults, hs]

/-- Helper computation: a fault-free job run reaches the CLEANUP block with
the result and trace of its pipeline call. -/
theorem run_noFaults_eq (cols : List String) (rows : List Row)
    (final_unc_path local_tmp : String) (k : Nat) (dts : Dts) :
    (run_sales_export cols rows final_unc_path local_tmp k dts noFaults).trace
      = (save_csv_via_staging_streaming cols rows final_unc_path local_tmp k
          (some (addSpan (addSpan [("IMPORTS", dts.imports)] "PREP" dts.prep)
            "CONNECT" dts.connect)) dts noFaults).trace
    ∧ (run_sales_export cols rows final_unc_path local_tmp k dts noFaults).result
      = (save_csv_via_staging_streaming cols rows final_unc_path local_tmp k
          (some (addSpan (addSpan [("IMPORTS", dts.imports)] "PREP" dts.prep)
            "CONNECT" dts.connect)) dts noFaults).result := by
  have hsv := save_noFaults cols rows final_unc_path local_tmp k
    (addSpan (addSpan [("IMPORTS", dts.imports)] "PREP" dts.prep) "CONNECT" dts.connect) dts
  constructor <;>
  · simp only [run_sales_export]
    rw [if_neg (by decide : ¬(noFaults.connectFails = true)), hsv.1]

/-- A filesystem with no files, used for concrete witnesses. -/
def emptyFS : FS := fun _ => none

/-- Concrete duration values used for concrete witnesses. -/
def dts0 : Dts := ⟨1, 1, 1, 1, 1, 1, 1, 8⟩

/-! ## Claim theorems -/

/-- C1: in every run of `save_csv_via_staging_streaming`, the destination
path is only ever modified by the single atomic rename
`os.replace(unc_tmp, final_unc)` of the same-directory temporary file, never
by a direct write, so at every instant of the run the destination path holds
either its previous content or the complete new export, never a partially
written file. -/
theorem publish_atomic_invariant (cols : List String) (rows : List Row)
    (final_unc_path local_tmp : String) (k : Nat) (spans : Option SpanMap)
    (dts : Dts) (faults : Faults) (fs0 : FS)
    (hk : 1 ≤ k)
    (h1 : final_unc_path ≠ local_tmp)
    (h2 : final_unc_path ≠ tmpPathFor final_unc_path) :
    (∀ op ∈ (save_csv_via_staging_streaming cols rows final_unc_path local_tmp k
        spans dts faults).trace,
      final_unc_path ∈ opTargets op →
        op = FsOp.replace (tmpPathFor final_unc_path) final_unc_path)
    ∧ ∀ fs ∈ statesOf fs0 (save_csv_via_staging_streaming cols rows final_unc_path
        local_tmp k spans dts faults).trace,
        fs final_unc_path = fs0 final_unc_path
        ∨ fs final_unc_path = some (csvText cols rows) := by
  rcases save_trace_cases cols rows final_unc_path local_tmp k spans dts faults with
    ⟨⟨e, herr⟩, _⟩ | ⟨n, hok, hsok, htr⟩
  · have hunt := save_err_untargeted cols rows final_unc_path local_tmp k spans dts
      faults e h1 h2 herr
    exact ⟨fun op hop hin => absurd hin (hunt op hop),
      fun fs hfs => Or.inl (statesOf_untouched hunt fs0 fs hfs)⟩
  · obtain ⟨hcontent, hlen⟩ :=
      stream_content cols rows local_tmp k hk faults.streamFailAfter n hsok fs0
    constructor
    · intro op hop hin
      rw [htr] at hop
      rcases List.mem_cons.mp hop with rfl | hop
      · simp [opTargets] at hin
      · rcases List.mem_append.mp hop with hop | hop
        · rw [stream_ops_targets op hop, List.mem_singleton] at hin
          exact absurd hin h1
        · rcases List.mem_append.mp hop with hop | hop
          · rcases List.mem_cons.mp hop with rfl | hop
            · simp only [opTargets, List.mem_cons, List.not_mem_nil, or_false] at hin
              exact absurd hin h2
            · exact List.mem_singleton.mp hop
          · by_cases hu : faults.unlinkFails = true
            · rw [if_pos hu] at hop
              exact absurd hop (List.not_mem_nil op)
            · rw [if_neg hu] at hop
              have hopu := List.mem_singleton.mp hop
              subst hopu
              simp only [opTargets, List.mem_singleton] at hin
              exact absurd hin h1
    · have htr2 : (save_csv_via_staging_streaming cols rows final_unc_path local_tmp k
            spans dts faults).trace
          = (FsOp.mkdir final_unc_path
              :: ((stream_query_to_local_csv cols rows local_tmp k true
                  faults.streamFailAfter).2
                ++ [FsOp.copyFile local_tmp (tmpPathFor final_unc_path)]))
            ++ (FsOp.replace (tmpPathFor final_unc_path) final_unc_path
                :: (if faults.unlinkFails then [] else [FsOp.unlink local_tmp])) := by
        rw [htr]
        simp
      have hAunt : ∀ op ∈ (FsOp.mkdir final_unc_path
            :: ((stream_query_to_local_csv cols rows local_tmp k true
                faults.streamFailAfter).2
              ++ [FsOp.copyFile local_tmp (tmpPathFor final_unc_path)])),
          final_unc_path ∉ opTargets op := by
        intro op hop
        rcases List.mem_cons.mp hop with rfl | hop
        · simp [opTargets]
        · rcases List.mem_append.mp hop with hop | hop
          · rw [stream_ops_targets op hop]
            simp [h1]
          · have hopc := List.mem_singleton.mp hop
            subst hopc
            simp [opTargets, h2]
      have hAu : applyOps fs0 (FsOp.mkdir final_unc_path
            :: ((stream_query_to_local_csv cols rows local_tmp k true
                faults.streamFailAfter).2
              ++ [FsOp.copyFile local_tmp (tmpPathFor final_unc_path)]))
          (tmpPathFor final_unc_path) = some (csvText cols rows) := by
        show applyOps fs0 ((stream_query_to_local_csv cols rows local_tmp k true
            faults.streamFailAfter).2
            ++ [FsOp.copyFile local_tmp (tmpPathFor final_unc_path)])
          (tmpPathFor final_unc_path) = some (csvText cols rows)
        rw [applyOps_append]
        show applyOp (applyOps fs0 (stream_query_to_local_csv cols rows local_tmp k true
            faults.streamFailAfter).2)
          (FsOp.copyFile local_tmp (tmpPathFor final_unc_path))
          (tmpPathFor final_unc_path) = some (csvText cols rows)
        simp [applyOp, hcontent]
      intro fs hfs
      rw [htr2] at hfs
      rcases mem_statesOf_append hfs with hfs | hfs
      · exact Or.inl (statesOf_untouched hAunt fs0 fs hfs)
      · simp only [statesOf, List.mem_cons] at hfs
        rcases hfs with rfl | hfs
        · exact Or.inl (applyOps_untouched hAunt fs0)
        · right
          have hRval : applyOp (applyOps fs0 (FsOp.mkdir final_unc_path
                :: ((stream_query_to_local_csv cols rows local_tmp k true
                    faults.streamFailAfter).2
                  ++ [FsOp.copyFile local_tmp (tmpPathFor final_unc_path)])))
              (FsOp.replace (tmpPathFor final_unc_path) final_unc_path) final_unc_path
              = some (csvText cols rows) := by
            simp [applyOp, hAu]
          have hulUnt : ∀ op ∈ (if faults.unlinkFails then [] else [FsOp.unlink local_tmp]),
              final_unc_path ∉ opTargets op := by
            by_cases hu : faults.unlinkFails = true
            · rw [if_pos hu]
              intro op hop
              exact absurd hop (List.not_mem_nil op)
            · rw [if_neg hu]
              intro op hop
              have hopu := List.mem_singleton.mp hop
              subst hopu
              simp [opTargets, h1]
          rw [statesOf_untouched hulUnt _ fs hfs, hRval]

/-- C1 witness: a concrete fault-free run on one row. -/
theorem publish_atomic_invariant_witness :
    ((1 ≤ 1 ∧ ("f.csv" : String) ≠ "s.csv") ∧ ("f.csv" : String) ≠ tmpPathFor "f.csv")
    ∧ ((∀ op ∈ (save_csv_via_staging_streaming ["H"] [["x"]] "f.csv" "s.csv" 1
          (some []) dts0 noFaults).trace,
        "f.csv" ∈ opTargets op → op = FsOp.replace (tmpPathFor "f.csv") "f.csv")
      ∧ ∀ fs ∈ statesOf emptyFS (save_csv_via_staging_streaming ["H"] [["x"]] "f.csv"
          "s.csv" 1 (some []) dts0 noFaults).trace,
          fs "f.csv" = emptyFS "f.csv" ∨ fs "f.csv" = some (csvText ["H"] [["x"]])) :=
  ⟨⟨⟨by decide, by decide⟩, by decide⟩,
    publish_atomic_invariant ["H"] [["x"]] "f.csv" "s.csv" 1 (some []) dts0 noFaults
      emptyFS (by decide) (by decide) (by decide)⟩

/-- C3: if the copy to the destination-directory temporary path fails, or any
earlier step fails (including a mid-stream fetch fault or the `spans=None`
defect), the run raises before the rename: no rename is ever attempted and
the destination path keeps its prior content at every instant. -/
theorem publish_failure_destination_unchanged (cols : List String) (rows : List Row)
    (final_unc_path local_tmp : String) (k : Nat) (spans : Option SpanMap)
    (dts : Dts) (faults : Faults) (fs0 : FS) (e : PErr)
    (h1 : final_unc_path ≠ local_tmp)
    (h2 : final_unc_path ≠ tmpPathFor final_unc_path)
    (herr : (save_csv_via_staging_streaming cols rows final_unc_path local_tmp k
        spans dts faults).result = Except.error e) :
    (∀ s d, FsOp.replace s d ∉ (save_csv_via_staging_streaming cols rows final_unc_path
        local_tmp k spans dts faults).trace)
    ∧ (∀ fs ∈ statesOf fs0 (save_csv_via_staging_streaming cols rows final_unc_path
        local_tmp k spans dts faults).trace,
        fs final_unc_path = fs0 final_unc_path)
    ∧ applyOps fs0 (save_csv_via_staging_streaming cols rows final_unc_path local_tmp k
        spans dts faults).trace final_unc_path = fs0 final_unc_path := by
  have hsh := save_err_shape cols rows final_unc_path local_tmp k spans dts faults e herr
  have hunt := save_err_untargeted cols rows final_unc_path local_tmp k spans dts
    faults e h1 h2 herr
  refine ⟨?_, statesOf_untouched hunt fs0, applyOps_untouched hunt fs0⟩
  intro s d hmem
  rcases hsh _ hmem with h | ⟨c, h⟩ | ⟨c, h⟩ | h <;> simp at h

/-- C3 witness: a concrete run whose copy step fails. -/
theorem publish_failure_destination_unchanged_witness :
    (("f.csv" : String) ≠ "s.csv" ∧ ("f.csv" : String) ≠ tmpPathFor "f.csv"
      ∧ (save_csv_via_staging_streaming ["H"] [["x"]] "f.csv" "s.csv" 1 (some []) dts0
          ⟨none, true, false, false, false⟩).result = Except.error PErr.publishCopy)
    ∧ ((∀ s d, FsOp.replace s d ∉ (save_csv_via_staging_streaming ["H"] [["x"]] "f.csv"
          "s.csv" 1 (some []) dts0 ⟨none, true, false, false, false⟩).trace)
      ∧ (∀ fs ∈ statesOf emptyFS (save_csv_via_staging_streaming ["H"] [["x"]] "f.csv"
          "s.csv" 1 (some []) dts0 ⟨none, true, false, false, false⟩).trace,
          fs "f.csv" = emptyFS "f.csv")
      ∧ applyOps emptyFS (save_csv_via_staging_streaming ["H"] [["x"]] "f.csv" "s.csv" 1
          (some []) dts0 ⟨none, true, false, false, false⟩).trace "f.csv"
        = emptyFS "f.csv") :=
  ⟨⟨by decide, by decide, by decide⟩,
    publish_failure_destination_unchanged ["H"] [["x"]] "f.csv" "s.csv" 1 (some []) dts0
      ⟨none, true, false, false, false⟩ emptyFS PErr.publishCopy
      (by decide) (by decide) (by decide)⟩

/-- C5: streaming a result set of `N` rows returns exactly `N`, the staging
file then holds the header record followed by the `N` encoded data records
(`N + 1` records in total), and a fault-free publish places that same
content at the destination while the pipeline returns the same `N`. -/
theorem stream_row_count_and_published_shape (cols : List String) (rows : List Row)
    (final_unc_path local_tmp : String) (k : Nat) (b : SpanMap) (dts : Dts) (fs0 : FS)
    (hk : 1 ≤ k) (h1 : final_unc_path ≠ local_tmp) :
    (stream_query_to_local_csv cols rows local_tmp k true none).1
      = Except.ok rows.length
    ∧ applyOps fs0 (stream_query_to_local_csv cols rows local_tmp k true none).2
        local_tmp = some (csvText cols rows)
    ∧ csvText cols rows = strConcat (fileRecords cols rows)
    ∧ (fileRecords cols rows).length = rows.length + 1
    ∧ (save_csv_via_staging_streaming cols rows final_unc_path local_tmp k (some b) dts
        noFaults).result = Except.ok rows.length
    ∧ applyOps fs0 (save_csv_via_staging_streaming cols rows final_unc_path local_tmp k
        (some b) dts noFaults).trace final_unc_path = some (csvText cols rows) := by
  have hs := stream_none_ok cols rows local_tmp k
  have hsum := chunks_sumLen k hk rows
  have hres : (save_csv_via_staging_streaming cols rows final_unc_path local_tmp k
      (some b) dts noFaults).result = Except.ok rows.length := by
    rw [(save_noFaults cols rows final_unc_path local_tmp k b dts).1, hsum]
  obtain ⟨hcontent, _⟩ := stream_content cols rows local_tmp k hk none _ hs fs0
  obtain ⟨_, hfinal, _⟩ := save_ok_state cols rows final_unc_path local_tmp k (some b)
    dts noFaults rows.length fs0 hk h1 hres
  exact ⟨by rw [hs, hsum], hcontent, rfl, by simp [fileRecords], hres, hfinal⟩

/-- C5 witness: two rows, batch size one. -/
theorem stream_row_count_and_published_shape_witness :
    (1 ≤ 1 ∧ ("f.csv" : String) ≠ "s.csv")
    ∧ ((stream_query_to_local_csv ["H"] [["x"], ["y"]] "s.csv" 1 true none).1
        = Except.ok ([["x"], ["y"]] : List Row).length
      ∧ applyOps emptyFS (stream_query_to_local_csv ["H"] [["x"], ["y"]] "s.csv" 1 true
          none).2 "s.csv" = some (csvText ["H"] [["x"], ["y"]])
      ∧ csvText ["H"] [["x"], ["y"]] = strConcat (fileRecords ["H"] [["x"], ["y"]])
      ∧ (fileRecords ["H"] [["x"], ["y"]]).length = ([["x"], ["y"]] : List Row).length + 1
      ∧ (save_csv_via_staging_streaming ["H"] [["x"], ["y"]] "f.csv" "s.csv" 1 (some [])
          dts0 noFaults).result = Except.ok ([["x"], ["y"]] : List Row).length
      ∧ applyOps emptyFS (save_csv_via_staging_streaming ["H"] [["x"], ["y"]] "f.csv"
          "s.csv" 1 (some []) dts0 noFaults).trace "f.csv"
        = some (csvText ["H"] [["x"], ["y"]])) :=
  ⟨⟨by decide, by decide⟩,
    stream_row_count_and_published_shape ["H"] [["x"], ["y"]] "f.csv" "s.csv" 1 [] dts0
      emptyFS (by decide) (by decide)⟩

/-- C6: the concrete scenario of the spec: two rows with columns
`Date, Site, Amount` publish exactly the bytes
`Date,Site,Amount\n2024-01-01,A,10\n2024-01-02,B,20\n`. -/
theorem scenario_published_bytes :
    applyOps emptyFS (save_csv_via_staging_streaming ["Date", "Site", "Amount"]
        [["2024-01-01", "A", "10"], ["2024-01-02", "B", "20"]]
        "d\\SW_Sales_Chart_Data.csv" "t\\stage.csv" 2 (some []) dts0 noFaults).trace
        "d\\SW_Sales_Chart_Data.csv"
      = some "Date,Site,Amount\n2024-01-01,A,10\n2024-01-02,B,20\n" := by decide

/-- C7: the batch size `arraysize` changes only how rows are grouped into
fetches: for any two batch sizes at least 1, the returned count and the
staging-file content are identical. -/
theorem batch_size_invariance (cols : List String) (rows : List Row) (p : String)
    (k1 k2 : Nat) (fs0 : FS) (hk1 : 1 ≤ k1) (hk2 : 1 ≤ k2) :
    (stream_query_to_local_csv cols rows p k1 true none).1
      = (stream_query_to_local_csv cols rows p k2 true none).1
    ∧ applyOps fs0 (stream_query_to_local_csv cols rows p k1 true none).2 p
      = applyOps fs0 (stream_query_to_local_csv cols rows p k2 true none).2 p := by
  obtain ⟨hc1, _⟩ := stream_content cols rows p k1 hk1 none _
    (stream_none_ok cols rows p k1) fs0
  obtain ⟨hc2, _⟩ := stream_content cols rows p k2 hk2 none _
    (stream_none_ok cols rows p k2) fs0
  constructor
  · rw [stream_none_ok, stream_none_ok, chunks_sumLen k1 hk1, chunks_sumLen k2 hk2]
  · rw [hc1, hc2]

/-- C7 witness: three rows with batch sizes 1 and 2. -/
theorem batch_size_invariance_witness :
    (1 ≤ 1 ∧ 1 ≤ 2)
    ∧ ((stream_query_to_local_csv ["H"] [["x"], ["y"], ["z"]] "s.csv" 1 true none).1
        = (stream_query_to_local_csv ["H"] [["x"], ["y"], ["z"]] "s.csv" 2 true none).1
      ∧ applyOps emptyFS (stream_query_to_local_csv ["H"] [["x"], ["y"], ["z"]] "s.csv" 1
          true none).2 "s.csv"
        = applyOps emptyFS (stream_query_to_local_csv ["H"] [["x"], ["y"], ["z"]] "s.csv" 2
            true none).2 "s.csv") :=
  ⟨⟨by decide, by decide⟩,
    batch_size_invariance ["H"] [["x"], ["y"], ["z"]] "s.csv" 1 2 emptyFS
      (by decide) (by decide)⟩

/-- C2: at a concrete run whose copy step fails, `run_sales_export`
propagates the exception before the CLEANUP block, so `cxn.close()` is never
called, whereas the same fault-free run does close the connection: the
connection is not released on the failure exit paths. -/
theorem connection_close_skipped_on_failure :
    (run_sales_export ["H"] [["x"]] "f.csv" "s.csv" 1 dts0
        ⟨none, true, false, false, false⟩).result = Except.error PErr.publishCopy
    ∧ (run_sales_export ["H"] [["x"]] "f.csv" "s.csv" 1 dts0
        ⟨none, true, false, false, false⟩).closeCalled = false
    ∧ (run_sales_export ["H"] [["x"]] "f.csv" "s.csv" 1 dts0 noFaults).closeCalled
      = true := by decide

/-- C8 counterexample: after a failing copy the function raises before the
staging-file deletion, so no unlink is attempted and the staging file still
holds the streamed bytes. -/
theorem staging_not_deleted_on_failure :
    (save_csv_via_staging_streaming ["H"] [["x"]] "f.csv" "s.csv" 1 (some []) dts0
        ⟨none, true, false, false, false⟩).result = Except.error PErr.publishCopy
    ∧ FsOp.unlink "s.csv" ∉ (save_csv_via_staging_streaming ["H"] [["x"]] "f.csv"
        "s.csv" 1 (some []) dts0 ⟨none, true, false, false, false⟩).trace
    ∧ applyOps emptyFS (save_csv_via_staging_streaming ["H"] [["x"]] "f.csv" "s.csv" 1
        (some []) dts0 ⟨none, true, false, false, false⟩).trace "s.csv" ≠ none := by
  decide

/-- C8 amended: the staging file is deleted only after a successful publish
(when the best-effort unlink itself does not fail); on a failed publish the
function raises first and no deletion of the staging file is attempted. -/
theorem staging_cleanup_success_only (cols : List String) (rows : List Row)
    (final_unc_path local_tmp : String) (k : Nat) (spans : Option SpanMap)
    (dts : Dts) (faults : Faults) (fs0 : FS)
    (hk : 1 ≤ k) (h1 : final_unc_path ≠ local_tmp) :
    (∀ n, (save_csv_via_staging_streaming cols rows final_unc_path local_tmp k spans dts
        faults).result = Except.ok n → faults.unlinkFails = false →
      applyOps fs0 (save_csv_via_staging_streaming cols rows final_unc_path local_tmp k
          spans dts faults).trace local_tmp = none
      ∧ FsOp.unlink local_tmp ∈ (save_csv_via_staging_streaming cols rows final_unc_path
          local_tmp k spans dts faults).trace)
    ∧ (∀ e, (save_csv_via_staging_streaming cols rows final_unc_path local_tmp k spans dts
        faults).result = Except.error e →
      FsOp.unlink local_tmp ∉ (save_csv_via_staging_streaming cols rows final_unc_path
          local_tmp k spans dts faults).trace) := by
  constructor
  · intro n hok hu
    exact (save_ok_state cols rows final_unc_path local_tmp k spans dts faults n fs0
      hk h1 hok).2.2 hu
  · intro e herr hmem
    rcases save_err_shape cols rows final_unc_path local_tmp k spans dts faults e herr
        _ hmem with h | ⟨c, h⟩ | ⟨c, h⟩ | h <;> simp at h

/-- C8 witness: one fault-free run on one row. -/
theorem staging_cleanup_success_only_witness :
    (1 ≤ 1 ∧ ("f.csv" : String) ≠ "s.csv")
    ∧ ((∀ n, (save_csv_via_staging_streaming ["H"] [["x"]] "f.csv" "s.csv" 1 (some [])
          dts0 noFaults).result = Except.ok n → noFaults.unlinkFails = false →
        applyOps emptyFS (save_csv_via_staging_streaming ["H"] [["x"]] "f.csv" "s.csv" 1
            (some []) dts0 noFaults).trace "s.csv" = none
        ∧ FsOp.unlink "s.csv" ∈ (save_csv_via_staging_streaming ["H"] [["x"]] "f.csv"
            "s.csv" 1 (some []) dts0 noFaults).trace)
      ∧ (∀ e, (save_csv_via_staging_streaming ["H"] [["x"]] "f.csv" "s.csv" 1 (some [])
          dts0 noFaults).result = Except.error e →
        FsOp.unlink "s.csv" ∉ (save_csv_via_staging_streaming ["H"] [["x"]] "f.csv"
            "s.csv" 1 (some []) dts0 noFaults).trace)) :=
  ⟨⟨by decide, by decide⟩,
    staging_cleanup_success_only ["H"] [["x"]] "f.csv" "s.csv" 1 (some []) dts0 noFaults
      emptyFS (by decide) (by decide)⟩

/-- C9: the `finally` of `timed` records the span on both the normal and the
failing exit path, repeated spans with one label accumulate by addition, and
a fault-free job reports an unaccounted residual equal to the total elapsed
time minus the sum of the span values accumulated in the dictionary at
report time (IMPORTS, PREP, CONNECT and the three pipeline spans; the
CLEANUP span is only added when that block exits, after the report). -/
theorem timed_spans_accounting :
    (∀ (label : String) (dt : ℚ) (b : SpanMap) (a : Nat),
        timed label dt (some b) (Except.ok a) = (Except.ok a, some (addSpan b label dt)))
    ∧ (∀ (label : String) (dt : ℚ) (b : SpanMap) (e : PErr),
        timed label dt (some b) (Except.error e : Except PErr Nat)
          = (Except.error e, some (addSpan b label dt)))
    ∧ (∀ (b : SpanMap) (label : String) (dt : ℚ),
        lookupD (addSpan b label dt) label = lookupD b label + dt)
    ∧ (∀ (cols : List String) (rows : List Row) (final_unc_path local_tmp : String)
        (k : Nat) (dts : Dts),
        (run_sales_export cols rows final_unc_path local_tmp k dts noFaults).reported
          = some (dts.total, dts.total
              - (dts.imports + dts.prep + dts.connect + dts.stream + dts.copy
                + dts.rename))) := by
  refine ⟨fun label dt b a => rfl, fun label dt b e => rfl, ?_, ?_⟩
  · intro b label dt
    induction b with
    | nil => simp [addSpan, lookupD]
    | cons kv rest ih =>
      obtain ⟨kk, v⟩ := kv
      by_cases hkl : kk = label
      · subst hkl
        simp [addSpan, lookupD]
      · simp [addSpan, lookupD, hkl, ih]
  · intro cols rows final_unc_path local_tmp k dts
    have hsv := save_noFaults cols rows final_unc_path local_tmp k
      (addSpan (addSpan [("IMPORTS", dts.imports)] "PREP" dts.prep) "CONNECT" dts.connect)
      dts
    simp only [run_sales_export]
    rw [if_neg (by decide : ¬(noFaults.connectFails = true)), hsv.1]
    simp only []
    rw [hsv.2]
    simp [addSpan, sumVals]
    ring_nf

/-- C4 counterexample: the three jobs use the identical destination path
string, and running job 2 after job 1 replaces the published export of
job 1 with the export of job 2. -/
theorem jobs_destinations_not_distinct :
    job1_final_unc_path = job2_final_unc_path
    ∧ job2_final_unc_path = job3_final_unc_path
    ∧ applyOps emptyFS
        (run_sales_export ["H"] [["a"]] job1_final_unc_path "t\\s1.csv" 1 dts0
          noFaults).trace job1_final_unc_path = some (csvText ["H"] [["a"]])
    ∧ applyOps (applyOps emptyFS
        (run_sales_export ["H"] [["a"]] job1_final_unc_path "t\\s1.csv" 1 dts0
          noFaults).trace)
        (run_sales_export ["H"] [["b"]] job2_final_unc_path "t\\s2.csv" 1 dts0
          noFaults).trace job1_final_unc_path = some (csvText ["H"] [["b"]])
    ∧ csvText ["H"] [["a"]] ≠ csvText ["H"] [["b"]] := by decide

/-- C4 amended: the jobs run sequentially with per-job connections and
staging files, but their destination paths are identical, so a later
fault-free job overwrites the destination with its own export. -/
theorem jobs_sequential_same_destination (cols1 cols2 : List String)
    (rows1 rows2 : List Row) (local1 local2 : String) (k1 k2 : Nat) (dts : Dts)
    (fs0 : FS)
    (hk2 : 1 ≤ k2) (h2 : job2_final_unc_path ≠ local2) :
    job1_final_unc_path = job2_final_unc_path
    ∧ job2_final_unc_path = job3_final_unc_path
    ∧ applyOps (applyOps fs0
        (run_sales_export cols1 rows1 job1_final_unc_path local1 k1 dts noFaults).trace)
        (run_sales_export cols2 rows2 job2_final_unc_path local2 k2 dts noFaults).trace
        job2_final_unc_path = some (csvText cols2 rows2) := by
  refine ⟨rfl, rfl, ?_⟩
  have htr := (run_noFaults_eq cols2 rows2 job2_final_unc_path local2 k2 dts).1
  have hres : (save_csv_via_staging_streaming cols2 rows2 job2_final_unc_path local2 k2
      (some (addSpan (addSpan [("IMPORTS", dts.imports)] "PREP" dts.prep) "CONNECT"
        dts.connect)) dts noFaults).result = Except.ok rows2.length := by
    rw [(save_noFaults cols2 rows2 job2_final_unc_path local2 k2 _ dts).1,
      chunks_sumLen k2 hk2]
  rw [htr]
  exact (save_ok_state cols2 rows2 job2_final_unc_path local2 k2 _ dts noFaults
    rows2.length _ hk2 h2 hres).2.1

/-- C4 amended witness: two concrete jobs in sequence. -/
theorem jobs_sequential_same_destination_witness :
    (1 ≤ 1 ∧ job2_final_unc_path ≠ "t\\s2.csv")
    ∧ (job1_final_unc_path = job2_final_unc_path
      ∧ job2_final_unc_path = job3_final_unc_path
      ∧ applyOps (applyOps emptyFS
          (run_sales_export ["H"] [["a"]] job1_final_unc_path "t\\s1.csv" 1 dts0
            noFaults).trace)
          (run_sales_export ["H"] [["b"]] job2_final_unc_path "t\\s2.csv" 1 dts0
            noFaults).trace job2_final_unc_path = some (csvText ["H"] [["b"]])) :=
  ⟨⟨by decide, by decide⟩,
    jobs_sequential_same_destination ["H"] ["H"] [["a"]] [["b"]] "t\\s1.csv" "t\\s2.csv"
      1 1 dts0 emptyFS (by decide) (by decide)⟩

/-- C10: calling `save_csv_via_staging_streaming` with its default
`spans=None` always raises `AttributeError` when the first timed span exits
(`bucket.get` on `None`), whatever the fault configuration, even though the
streaming step itself succeeds and returns the full row count. -/
theorem spans_none_always_raises (cols : List String) (rows : List Row)
    (final_unc_path local_tmp : String) (k : Nat) (dts : Dts) (faults : Faults)
    (hk : 1 ≤ k) :
    (save_csv_via_staging_streaming cols rows final_unc_path local_tmp k none dts
        faults).result = Except.error PErr.attributeError
    ∧ (stream_query_to_local_csv cols rows local_tmp k true none).1
      = Except.ok rows.length := by
  constructor
  · simp [save_csv_via_staging_streaming, timed]
  · rw [stream_none_ok, chunks_sumLen k hk]

/-- C10 witness: a fault-free one-row run with the default `spans=None`. -/
theorem spans_none_always_raises_witness :
    1 ≤ 1
    ∧ ((save_csv_via_staging_streaming ["H"] [["x"]] "f.csv" "s.csv" 1 none dts0
        noFaults).result = Except.error PErr.attributeError
      ∧ (stream_query_to_local_csv ["H"] [["x"]] "s.csv" 1 true none).1
        = Except.ok ([["x"]] : List Row).length) :=
  ⟨by decide,
    spans_none_always_raises ["H"] [["x"]] "f.csv" "s.csv" 1 dts0 noFaults (by decide)⟩

end WorkSample
